import Mathlib

/-!
Shallow embedding of the `SmartMoneyScorer` stock-scoring pipeline
(`综合评分V2.py`).

Numeric market data is modelled with exact rationals.  Pandas rolling
statistics that are undefined on short series (`rolling(w)` yields `NaN`
on the last row when fewer than `w` rows exist) are modelled with
`Option ℚ`, and comparisons against such values follow IEEE `NaN`
semantics (every comparison with `NaN` is false).  Divisions whose
denominator can be zero (numpy turns them into `±inf` / `NaN` under the
module-wide `warnings.filterwarnings('ignore')`) are modelled by
`PyFloat`.  Each scorer takes the data slice its `akshare` fetch would
return: `none` models a raised fetch (swallowed by the scorer's bare
`except`, which returns the neutral 50), `some []` models an empty frame.
-/

namespace SmartMoney

/-- Last `n` elements of a list: `DataFrame.tail(n)`, and also the window
the last row of `rolling(n)` aggregates over. -/
def takeLast (n : Nat) (l : List α) : List α := l.drop (l.length - n)

/-- `Series.max()`: `none` on an empty series (pandas returns `NaN`). -/
def listMax : List ℚ → Option ℚ
  | [] => none
  | x :: xs => some (xs.foldl max x)

/-- `Series.min()`: `none` on an empty series (pandas returns `NaN`). -/
def listMin : List ℚ → Option ℚ
  | [] => none
  | x :: xs => some (xs.foldl min x)

/-- Strict `>` where either side may be `NaN` (modelled by `none`): any
comparison involving `NaN` is false. -/
def oGT : Option ℚ → Option ℚ → Bool
  | some a, some b => decide (b < a)
  | _, _ => false

/-- Strict `<` with `NaN` semantics, as in `oGT`. -/
def oLT : Option ℚ → Option ℚ → Bool
  | some a, some b => decide (a < b)
  | _, _ => false

/-- `iloc[-1]` on a column; the default is never reached at call sites,
which all guard against the empty frame first. -/
def ilocLast (l : List ℚ) : ℚ := l.getD (l.length - 1) 0

/-- `iloc[-2]` on a column; call sites guard `2 ≤ length`. -/
def ilocPrev (l : List ℚ) : ℚ := l.getD (l.length - 2) 0

/-- Value of a numpy float division: finite, `±inf`, or `NaN`. -/
inductive PyFloat where
  | fin : ℚ → PyFloat
  | pinf : PyFloat
  | ninf : PyFloat
  | nan : PyFloat
deriving DecidableEq

/-- Numpy scalar division with the module-wide warning filter active: a
zero denominator yields `±inf` (or `NaN` for `0/0`) instead of raising. -/
def pyDiv (a b : ℚ) : PyFloat :=
  if b ≠ 0 then .fin (a / b)
  else if 0 < a then .pinf
  else if a < 0 then .ninf
  else .nan

/-- `x > c` for a possibly non-finite `x`; `NaN` compares false. -/
def PyFloat.gtQ : PyFloat → ℚ → Bool
  | .fin q, c => decide (c < q)
  | .pinf, _ => true
  | .ninf, _ => false
  | .nan, _ => false

/-- `x < c` for a possibly non-finite `x`; `NaN` compares false. -/
def PyFloat.ltQ : PyFloat → ℚ → Bool
  | .fin q, c => decide (q < c)
  | .pinf, _ => false
  | .ninf, _ => true
  | .nan, _ => false

/-- `rolling(w).mean().iloc[-1]`: mean of the last `w` entries, `NaN`
(here `none`) when fewer than `w` rows exist. -/
def meanLast (w : Nat) (l : List ℚ) : Option ℚ :=
  if w ≤ l.length then some ((takeLast w l).sum / (w : ℚ)) else none

/-- Square of `rolling(w).std().iloc[-1]`: the sample variance
(`ddof = 1`) of the last `w` entries, `none` when fewer than `w` rows
exist. -/
def varLast (w : Nat) (l : List ℚ) : Option ℚ :=
  if w ≤ l.length then
    some (((takeLast w l).map
      (fun x => (x - (takeLast w l).sum / (w : ℚ)) ^ 2)).sum / ((w : ℚ) - 1))
  else none

/-- Integer square root by bounded search; kernel-computable, exact on
perfect squares. -/
def natSqrtL (n : Nat) : Nat :=
  (List.range (n + 1)).foldl (fun acc k => if k * k ≤ n then k else acc) 0

/-- Rational square root used to model the source's floating-point
standard deviation.  It is exact whenever the operand is a perfect
rational square, which covers every concrete series appearing below; no
theorem in this file depends on its value elsewhere (the Bollinger score
is one of three fixed constants whatever the standard deviation is). -/
def ratSqrt (q : ℚ) : ℚ := (natSqrtL q.num.toNat : ℚ) / (natSqrtL q.den : ℚ)

/-! ### Dimension scorers -/

/-- Ternary `prev = rows.iloc[1][...] if len(rows) > 1 else latest`
(lines 51 and 84 of the source). -/
def prevOrLatest (latest : ℚ) : List ℚ → ℚ
  | [] => latest
  | p :: _ => p

/-- Guarded change ratio shared by the funding and north-money scorers
(lines 53–56 and 86–89): when the previous value is not positive the
division is skipped and the ratio is 0. -/
def changeRatio (latest prev : ℚ) : ℚ :=
  if prev > 0 then (latest - prev) / prev else 0

/-- `calculate_funding_score` (lines 41–72): the argument is the
`rzjyye` (margin balance) column of `stock_margin_sse`, most recent row
first (`iloc[0]` is the latest value, `iloc[1]` the previous one). -/
def calculate_funding_score : Option (List ℚ) → ℚ
  | none => 50
  | some [] => 50
  | some (latest :: rest) =>
    if changeRatio latest (prevOrLatest latest rest) > (0.1 : ℚ) then 90
    else if changeRatio latest (prevOrLatest latest rest) > (0.05 : ℚ) then 75
    else if changeRatio latest (prevOrLatest latest rest) > 0 then 60
    else if changeRatio latest (prevOrLatest latest rest) > (-0.05 : ℚ) then 40
    else 20

/-- `calculate_north_money_score` (lines 74–109): the argument is the
`持股数量` (held shares) column of `stock_hsgt_hold_stock_em`, most
recent row first. -/
def calculate_north_money_score : Option (List ℚ) → ℚ
  | none => 50
  | some [] => 50
  | some (latest :: rest) =>
    if changeRatio latest (prevOrLatest latest rest) > (0.2 : ℚ) then 95
    else if changeRatio latest (prevOrLatest latest rest) > (0.1 : ℚ) then 80
    else if changeRatio latest (prevOrLatest latest rest) > (0.05 : ℚ) then 70
    else if changeRatio latest (prevOrLatest latest rest) > 0 then 60
    else if changeRatio latest (prevOrLatest latest rest) > (-0.05 : ℚ) then 45
    else if changeRatio latest (prevOrLatest latest rest) > (-0.1 : ℚ) then 30
    else 20

/-- One row of `stock_individual_fund_flow`; the source reads the
`主力净流入` and `换手率` fields of `iloc[0]` (the turnover is bound but
never used afterwards). -/
structure MoneyFlowRow where
  mainNetInflow : ℚ
  turnover : ℚ
deriving DecidableEq

/-- `calculate_main_money_score` (lines 111–137). -/
def calculate_main_money_score : Option (List MoneyFlowRow) → ℚ
  | none => 50
  | some [] => 50
  | some (r :: _) =>
    if r.mainNetInflow > 10000000 then 90
    else if r.mainNetInflow > 5000000 then 75
    else if r.mainNetInflow > 0 then 60
    else if r.mainNetInflow > -5000000 then 40
    else 25

/-- One OHLCV bar of `stock_zh_a_hist`; only the columns the scorers
read are modelled (`最高`, `最低`, `收盘`, `成交量`). -/
structure Bar where
  high : ℚ
  low : ℚ
  close : ℚ
  volume : ℚ
deriving DecidableEq

/-- The `收盘` (close) column of a bar frame. -/
def closesOf (bars : List Bar) : List ℚ := bars.map Bar.close

/-- The `成交量` (volume) column of a bar frame. -/
def volumesOf (bars : List Bar) : List ℚ := bars.map Bar.volume

/-- `MA20` at the last row (line 150). -/
def ma20Of (closes : List ℚ) : Option ℚ := meanLast 20 closes

/-- `STD20` at the last row (line 151): sample standard deviation of the
last 20 closes. -/
def std20Of (closes : List ℚ) : Option ℚ := (varLast 20 closes).map ratSqrt

/-- `Upper` Bollinger band at the last row (line 152). -/
def upperOf (closes : List ℚ) : Option ℚ :=
  match ma20Of closes, std20Of closes with
  | some m, some s => some (m + 2 * s)
  | _, _ => none

/-- `Lower` Bollinger band at the last row (line 153). -/
def lowerOf (closes : List ℚ) : Option ℚ :=
  match ma20Of closes, std20Of closes with
  | some m, some s => some (m - 2 * s)
  | _, _ => none

/-- `bb_position` (line 161).  When the bands are `NaN` (short series)
the Python comparison `(upper - lower) > 0` is false, so the ternary
falls through to 0.5 exactly as in the band-width-zero case. -/
def bbPosOf (closes : List ℚ) (latestClose : ℚ) : ℚ :=
  match upperOf closes, lowerOf closes with
  | some u, some l => if u - l > 0 then (latestClose - l) / (u - l) else 0.5
  | _, _ => (0.5 : ℚ)

/-- `bb_score` (lines 163–168). -/
def bbScoreOf (closes : List ℚ) (latestClose : ℚ) : ℚ :=
  if bbPosOf closes latestClose > (0.7 : ℚ) then 30
  else if bbPosOf closes latestClose > (0.3 : ℚ) then 70
  else 40

/-- `ma_score` (lines 171–181): the Python chain `ma5 > ma10 > ma20`
is `(ma5 > ma10) and (ma10 > ma20)`, each comparison false on `NaN`. -/
def maScoreOf (closes : List ℚ) : ℚ :=
  if oGT (meanLast 5 closes) (meanLast 10 closes)
      && oGT (meanLast 10 closes) (ma20Of closes) then 90
  else if oGT (meanLast 5 closes) (meanLast 10 closes) then 70
  else if oGT (meanLast 5 closes) (ma20Of closes) then 60
  else 40

/-- `sar_score` (lines 184–192): latest close against the max high and
min low of the last five bars (`tail(5)` includes the latest bar). -/
def sarScore (bars : List Bar) : ℚ :=
  if oGT (some (ilocLast (closesOf bars))) (listMax ((takeLast 5 bars).map Bar.high)) then 80
  else if oLT (some (ilocLast (closesOf bars))) (listMin ((takeLast 5 bars).map Bar.low)) then 30
  else 60

/-- `calculate_technical_score` (lines 139–197). -/
def calculate_technical_score : Option (List Bar) → ℚ
  | none => 50
  | some [] => 50
  | some (b :: bs) =>
    bbScoreOf (closesOf (b :: bs)) (ilocLast (closesOf (b :: bs))) * 0.3
      + maScoreOf (closesOf (b :: bs)) * 0.4
      + sarScore (b :: bs) * 0.3

/-- Bucket step of `calculate_price_volume_score` (lines 215–220). -/
def pvBuckets (priceChange volumeChange : PyFloat) : ℚ :=
  if (priceChange.gtQ 0 && volumeChange.gtQ 0)
      || (priceChange.ltQ 0 && volumeChange.ltQ 0) then 80
  else if (priceChange.gtQ 0 && volumeChange.ltQ 0)
      || (priceChange.ltQ 0 && volumeChange.gtQ 0) then 40
  else 60

/-- `calculate_price_volume_score` (lines 199–224).  A single-row frame
makes `iloc[-2]` raise `IndexError`, caught by the bare `except` → 50. -/
def calculate_price_volume_score : Option (List Bar) → ℚ
  | none => 50
  | some [] => 50
  | some (b :: bs) =>
    if (b :: bs).length < 2 then 50
    else
      pvBuckets
        (pyDiv (ilocLast (closesOf (b :: bs)) - ilocPrev (closesOf (b :: bs)))
          (ilocPrev (closesOf (b :: bs))))
        (pyDiv (ilocLast (volumesOf (b :: bs)) - ilocPrev (volumesOf (b :: bs)))
          (ilocPrev (volumesOf (b :: bs))))

/-- `price_20_days_ago` (lines 237–238): `iloc[-20]` when at least 20
rows exist, else `iloc[0]`. -/
def price20Ago (closes : List ℚ) : ℚ :=
  if 20 ≤ closes.length then closes.getD (closes.length - 20) 0 else closes.getD 0 0

/-- Bucket step of `calculate_market_performance_score` (lines 243–252). -/
def mpBuckets (r : PyFloat) : ℚ :=
  if r.gtQ (0.2 : ℚ) then 90
  else if r.gtQ (0.1 : ℚ) then 75
  else if r.gtQ 0 then 65
  else if r.gtQ (-0.1 : ℚ) then 45
  else 30

/-- `calculate_market_performance_score` (lines 226–256). -/
def calculate_market_performance_score : Option (List Bar) → ℚ
  | none => 50
  | some [] => 50
  | some (b :: bs) =>
    mpBuckets (pyDiv (ilocLast (closesOf (b :: bs)) - price20Ago (closesOf (b :: bs)))
      (price20Ago (closesOf (b :: bs))))

/-- The frame returned by `stock_individual_info_em` as the liquidity
scorer observes it: its number of rows (for the `.empty` test) and its
column names (for `DataFrame.get`). -/
structure InfoFrame where
  nrows : Nat
  cols : List String
deriving DecidableEq

/-- Bucket step of `calculate_liquidity_score` (lines 270–277). -/
def liquidityBuckets (marketCap : ℚ) : ℚ :=
  if marketCap < 5000000000 then 70
  else if marketCap < 20000000000 then 80
  else if marketCap < 100000000000 then 65
  else 50

/-- `calculate_liquidity_score` (lines 258–281).  `stock_info.get('总市值', 0)`
is a `DataFrame.get`, i.e. a column lookup: when the column is absent it
returns the scalar default 0; when such a column is present it returns a
`Series`, whose use in `if market_cap < ...` raises `ValueError` ("truth
value of a Series is ambiguous"), caught by the bare `except` → 50. -/
def calculate_liquidity_score : Option InfoFrame → ℚ
  | none => 50
  | some fr =>
    if fr.nrows = 0 then 50
    else if "总市值" ∈ fr.cols then 50
    else liquidityBuckets 0

/-! ### Composite scorer and ranker -/

/-- The seven dimension scores of one stock. -/
structure Scores where
  funding : ℚ
  north : ℚ
  main : ℚ
  technical : ℚ
  priceVolume : ℚ
  marketPerf : ℚ
  liquidity : ℚ
deriving DecidableEq

/-- `self.weights` (lines 22–30). -/
def weights : List (String × ℚ) :=
  [("funding_score", 0.15), ("north_money_score", 0.20), ("main_money_score", 0.15),
   ("price_volume_score", 0.10), ("technical_score", 0.20),
   ("market_performance_score", 0.10), ("liquidity_score", 0.10)]

/-- `scores.items()` in insertion order (lines 287–293). -/
def scoresItems (s : Scores) : List (String × ℚ) :=
  [("funding_score", s.funding), ("north_money_score", s.north),
   ("main_money_score", s.main), ("technical_score", s.technical),
   ("price_volume_score", s.priceVolume), ("market_performance_score", s.marketPerf),
   ("liquidity_score", s.liquidity)]

/-- `self.weights[dimension]`; every key fed to it is one of the seven
dictionary keys, so the 0 default of the total lookup is never used. -/
def weightOf (d : String) : ℚ := ((weights.lookup d).getD 0)

/-- The accumulation loop of `calculate_comprehensive_score`
(lines 296–298): `total_score += score * self.weights[dimension]`. -/
def total_score (s : Scores) : ℚ :=
  (scoresItems s).foldl (fun acc ds => acc + ds.2 * weightOf ds.1) 0

/-- Data slices the seven per-stock fetches return for one stock; the
three `stock_zh_a_hist` calls are kept separate because they are separate
requests in the source. -/
structure MarketData where
  marginData : Option (List ℚ)
  northData : Option (List ℚ)
  moneyFlow : Option (List MoneyFlowRow)
  histTechnical : Option (List Bar)
  histPriceVolume : Option (List Bar)
  histPerformance : Option (List Bar)
  stockInfo : Option InfoFrame

/-- The seven scorer calls of `calculate_comprehensive_score`
(lines 287–293). -/
def calculate_comprehensive_score (md : MarketData) : Scores where
  funding := calculate_funding_score md.marginData
  north := calculate_north_money_score md.northData
  main := calculate_main_money_score md.moneyFlow
  technical := calculate_technical_score md.histTechnical
  priceVolume := calculate_price_volume_score md.histPriceVolume
  marketPerf := calculate_market_performance_score md.histPerformance
  liquidity := calculate_liquidity_score md.stockInfo

/-- One row of the ranker's result frame. -/
structure ScoreRec where
  stockCode : String
  dims : Scores
  total : ℚ
deriving DecidableEq

/-- The result frame is ordered by the `total_score` column,
non-increasing. -/
def SortedByTotalDesc (l : List ScoreRec) : Prop :=
  l.Chain' (fun a b => b.total ≤ a.total)

/-- Contract of `df.sort_values('total_score', ascending=False)`
(line 319): the output is a permutation of the rows, ordered by the key.
The call uses the default `kind='quicksort'`, which pandas documents as
not stable, so no tie-breaking behaviour is part of the contract. -/
def sortValuesDesc (input output : List ScoreRec) : Prop :=
  output.Perm input ∧ SortedByTotalDesc output

/-- Stability: rows with equal `total_score` keep their input order. -/
def StableOnTies (input output : List ScoreRec) : Prop :=
  ∀ a ∈ input, ∀ b ∈ input, a.total = b.total →
    input.indexOf a ≤ input.indexOf b → output.indexOf a ≤ output.indexOf b

/-- `analyze_multiple_stocks` (lines 305–321).  `f` abstracts the
per-stock `calculate_comprehensive_score` call: `none` models a raised
exception, which the per-stock `try/except` swallows (the stock is
skipped), so the collected `results` list is `stocks.filterMap f`.  When
every stock failed, `pd.DataFrame([])` has no columns and
`sort_values('total_score', ...)` raises `KeyError` — the `error` case.
Otherwise the output rows are the sort contract applied to `results`. -/
def analyze_multiple_stocks (f : String → Option ScoreRec) (stocks : List String) :
    Except Unit (List ScoreRec) → Prop
  | .error _ => stocks.filterMap f = []
  | .ok l => stocks.filterMap f ≠ [] ∧ sortValuesDesc (stocks.filterMap f) l

instance : DecidableRel (fun a b : ScoreRec => b.total ≤ a.total) :=
  fun a b => inferInstanceAs (Decidable (b.total ≤ a.total))

instance : IsTrans ScoreRec (fun a b : ScoreRec => b.total ≤ a.total) :=
  ⟨fun _ _ _ h1 h2 => le_trans h2 h1⟩

instance : IsTotal ScoreRec (fun a b : ScoreRec => b.total ≤ a.total) :=
  ⟨fun a b => le_total b.total a.total⟩

/-- Score record used in concrete ranking scenarios (total 50). -/
def recA : ScoreRec := ⟨"000001", ⟨50, 50, 50, 50, 50, 50, 50⟩, 50⟩

/-- Second record with the same total as `recA` but a different code. -/
def recB : ScoreRec := ⟨"000002", ⟨50, 50, 50, 50, 50, 50, 50⟩, 50⟩

/-- Third record with a higher total. -/
def recC : ScoreRec := ⟨"000003", ⟨60, 60, 60, 60, 60, 60, 60⟩, 60⟩

/-- Concrete per-stock scoring outcome for ranking scenarios: two codes
succeed, every other identifier fails (is skipped by the ranker). -/
def demoScorer : String → Option ScoreRec := fun s =>
  if s = "000001" then some recA else if s = "000003" then some recC else none

/-- Concrete 60-day-window bar series: 20 trading days whose closes have
mean 100 and sample standard deviation exactly 2, whose latest close 96
sits exactly on the lower Bollinger band, with MA5 > MA10 > MA20 and
every recent high below the latest close. -/
def demoBars : List Bar :=
  [⟨1, 1000, 98, 0⟩, ⟨1, 1000, 99, 0⟩, ⟨1, 1000, 99, 0⟩, ⟨1, 1000, 99, 0⟩, ⟨1, 1000, 99, 0⟩,
   ⟨1, 1000, 99, 0⟩, ⟨1, 1000, 100, 0⟩, ⟨1, 1000, 100, 0⟩, ⟨1, 1000, 100, 0⟩, ⟨1, 1000, 100, 0⟩,
   ⟨1, 1000, 101, 0⟩, ⟨1, 1000, 100, 0⟩, ⟨1, 1000, 100, 0⟩, ⟨1, 1000, 100, 0⟩, ⟨1, 1000, 100, 0⟩,
   ⟨1, 1000, 100, 0⟩, ⟨1, 1000, 100, 0⟩, ⟨1, 1000, 105, 0⟩, ⟨1, 1000, 105, 0⟩, ⟨1, 1000, 96, 0⟩]

/-! ### Range lemmas for the seven dimension scorers -/

theorem funding_score_bounds (d : Option (List ℚ)) :
    0 ≤ calculate_funding_score d ∧ calculate_funding_score d ≤ 100 := by
  match d with
  | none => norm_num [calculate_funding_score]
  | some [] => norm_num [calculate_funding_score]
  | some (x :: r) =>
    simp only [calculate_funding_score]
    split_ifs <;> norm_num

theorem north_score_bounds (d : Option (List ℚ)) :
    0 ≤ calculate_north_money_score d ∧ calculate_north_money_score d ≤ 100 := by
  match d with
  | none => norm_num [calculate_north_money_score]
  | some [] => norm_num [calculate_north_money_score]
  | some (x :: r) =>
    simp only [calculate_north_money_score]
    split_ifs <;> norm_num

theorem main_score_bounds (d : Option (List MoneyFlowRow)) :
    0 ≤ calculate_main_money_score d ∧ calculate_main_money_score d ≤ 100 := by
  match d with
  | none => norm_num [calculate_main_money_score]
  | some [] => norm_num [calculate_main_money_score]
  | some (x :: r) =>
    simp only [calculate_main_money_score]
    split_ifs <;> norm_num

theorem bbScoreOf_bounds (c : List ℚ) (x : ℚ) :
    30 ≤ bbScoreOf c x ∧ bbScoreOf c x ≤ 70 := by
  simp only [bbScoreOf]
  split_ifs <;> norm_num

theorem maScoreOf_bounds (c : List ℚ) :
    40 ≤ maScoreOf c ∧ maScoreOf c ≤ 90 := by
  simp only [maScoreOf]
  split_ifs <;> norm_num

theorem sarScore_bounds (bars : List Bar) :
    30 ≤ sarScore bars ∧ sarScore bars ≤ 80 := by
  simp only [sarScore]
  split_ifs <;> norm_num

theorem technical_score_bounds (d : Option (List Bar)) :
    0 ≤ calculate_technical_score d ∧ calculate_technical_score d ≤ 100 := by
  match d with
  | none => norm_num [calculate_technical_score]
  | some [] => norm_num [calculate_technical_score]
  | some (b :: bs) =>
    obtain ⟨hb1, hb2⟩ := bbScoreOf_bounds (closesOf (b :: bs)) (ilocLast (closesOf (b :: bs)))
    obtain ⟨hm1, hm2⟩ := maScoreOf_bounds (closesOf (b :: bs))
    obtain ⟨hs1, hs2⟩ := sarScore_bounds (b :: bs)
    simp only [calculate_technical_score]
    constructor <;> nlinarith

theorem pv_score_bounds (d : Option (List Bar)) :
    0 ≤ calculate_price_volume_score d ∧ calculate_price_volume_score d ≤ 100 := by
  match d with
  | none => norm_num [calculate_price_volume_score]
  | some [] => norm_num [calculate_price_volume_score]
  | some (b :: bs) =>
    simp only [calculate_price_volume_score, pvBuckets]
    split_ifs <;> norm_num

theorem mp_score_bounds (d : Option (List Bar)) :
    0 ≤ calculate_market_performance_score d ∧ calculate_market_performance_score d ≤ 100 := by
  match d with
  | none => norm_num [calculate_market_performance_score]
  | some [] => norm_num [calculate_market_performance_score]
  | some (b :: bs) =>
    simp only [calculate_market_performance_score, mpBuckets]
    split_ifs <;> norm_num

theorem liquidity_score_bounds (d : Option InfoFrame) :
    0 ≤ calculate_liquidity_score d ∧ calculate_liquidity_score d ≤ 100 := by
  match d with
  | none => norm_num [calculate_liquidity_score]
  | some fr =>
    simp only [calculate_liquidity_score, liquidityBuckets]
    split_ifs <;> norm_num

/-! ### Claims -/

/-- C1: the composite score is the weighted sum
`total_score = Σ weight[d] · score[d]` over the seven dimensions with the
fixed weight table (funding 0.15, north-money 0.20, main-money 0.15,
technical 0.20, price-volume 0.10, market-performance 0.10,
liquidity 0.10), and whenever each of the seven dimension scores lies in
`[0, 100]`, so does the total (the weights are non-negative and sum to
1, a convex combination). -/
theorem total_score_weighted_sum_convex (s : Scores)
    (h : 0 ≤ s.funding ∧ s.funding ≤ 100 ∧ 0 ≤ s.north ∧ s.north ≤ 100 ∧
         0 ≤ s.main ∧ s.main ≤ 100 ∧ 0 ≤ s.technical ∧ s.technical ≤ 100 ∧
         0 ≤ s.priceVolume ∧ s.priceVolume ≤ 100 ∧
         0 ≤ s.marketPerf ∧ s.marketPerf ≤ 100 ∧
         0 ≤ s.liquidity ∧ s.liquidity ≤ 100) :
    total_score s
        = 0.15 * s.funding + 0.20 * s.north + 0.15 * s.main + 0.20 * s.technical
          + 0.10 * s.priceVolume + 0.10 * s.marketPerf + 0.10 * s.liquidity
      ∧ 0 ≤ total_score s ∧ total_score s ≤ 100 := by
  obtain ⟨h1, h2, h3, h4, h5, h6, h7, h8, h9, h10, h11, h12, h13, h14⟩ := h
  have he : total_score s
      = 0.15 * s.funding + 0.20 * s.north + 0.15 * s.main + 0.20 * s.technical
        + 0.10 * s.priceVolume + 0.10 * s.marketPerf + 0.10 * s.liquidity := by
    have w1 : weightOf "funding_score" = (0.15 : ℚ) := rfl
    have w2 : weightOf "north_money_score" = (0.20 : ℚ) := rfl
    have w3 : weightOf "main_money_score" = (0.15 : ℚ) := rfl
    have w4 : weightOf "technical_score" = (0.20 : ℚ) := rfl
    have w5 : weightOf "price_volume_score" = (0.10 : ℚ) := rfl
    have w6 : weightOf "market_performance_score" = (0.10 : ℚ) := rfl
    have w7 : weightOf "liquidity_score" = (0.10 : ℚ) := rfl
    simp only [total_score, scoresItems, List.foldl, w1, w2, w3, w4, w5, w6, w7]
    ring
  refine ⟨he, ?_, ?_⟩ <;> rw [he] <;> linarith

/-- Witness for C1 at the all-50 score vector: the weighted sum evaluates
to 50 and the range hypothesis holds. -/
theorem total_score_weighted_sum_convex_witness :
    total_score ⟨50, 50, 50, 50, 50, 50, 50⟩
        = 0.15 * 50 + 0.20 * 50 + 0.15 * 50 + 0.20 * 50 + 0.10 * 50 + 0.10 * 50 + 0.10 * 50
      ∧ 0 ≤ total_score ⟨50, 50, 50, 50, 50, 50, 50⟩
      ∧ total_score ⟨50, 50, 50, 50, 50, 50, 50⟩ ≤ 100 :=
  total_score_weighted_sum_convex ⟨50, 50, 50, 50, 50, 50, 50⟩ (by norm_num)

/-- C2: every one of the seven dimension scorers stays within `[0, 100]`
on every input — failed fetch, empty frame, or arbitrary (possibly
degenerate) numeric series; in particular the technical scorer's blend
`0.3·band + 0.4·MA + 0.3·breakout` of bounded sub-scores stays in range. -/
theorem dimension_scores_bounded (m n : Option (List ℚ))
    (mf : Option (List MoneyFlowRow)) (ht hpv hmp : Option (List Bar))
    (fr : Option InfoFrame) :
    (0 ≤ calculate_funding_score m ∧ calculate_funding_score m ≤ 100) ∧
    (0 ≤ calculate_north_money_score n ∧ calculate_north_money_score n ≤ 100) ∧
    (0 ≤ calculate_main_money_score mf ∧ calculate_main_money_score mf ≤ 100) ∧
    (0 ≤ calculate_technical_score ht ∧ calculate_technical_score ht ≤ 100) ∧
    (0 ≤ calculate_price_volume_score hpv ∧ calculate_price_volume_score hpv ≤ 100) ∧
    (0 ≤ calculate_market_performance_score hmp ∧ calculate_market_performance_score hmp ≤ 100) ∧
    (0 ≤ calculate_liquidity_score fr ∧ calculate_liquidity_score fr ≤ 100) :=
  ⟨funding_score_bounds m, north_score_bounds n, main_score_bounds mf,
   technical_score_bounds ht, pv_score_bounds hpv, mp_score_bounds hmp,
   liquidity_score_bounds fr⟩

/-- C3: every one of the seven dimension scorers returns exactly the
neutral 50 when its fetch yields no data — a raised retrieval (`none`)
or an empty frame (`some []`; for the liquidity scorer an info frame
with zero rows). -/
theorem empty_fetch_returns_neutral :
    (calculate_funding_score none = 50 ∧ calculate_funding_score (some []) = 50) ∧
    (calculate_north_money_score none = 50 ∧ calculate_north_money_score (some []) = 50) ∧
    (calculate_main_money_score none = 50 ∧ calculate_main_money_score (some []) = 50) ∧
    (calculate_technical_score none = 50 ∧ calculate_technical_score (some []) = 50) ∧
    (calculate_price_volume_score none = 50 ∧ calculate_price_volume_score (some []) = 50) ∧
    (calculate_market_performance_score none = 50 ∧
      calculate_market_performance_score (some []) = 50) ∧
    (calculate_liquidity_score none = 50 ∧
      ∀ cols, calculate_liquidity_score (some ⟨0, cols⟩) = 50) := by
  refine ⟨⟨rfl, rfl⟩, ⟨rfl, rfl⟩, ⟨rfl, rfl⟩, ⟨rfl, rfl⟩, ⟨rfl, rfl⟩, ⟨rfl, rfl⟩, rfl, ?_⟩
  intro cols
  simp [calculate_liquidity_score]

/-- C4 counterexample: a zero previous margin balance (resp. zero
previous held shares) does hit the guarded branch, but the scorer then
returns the ratio-0 bucket — 40 for funding, 45 for north-money — and
not the neutral default 50 the claim asserts. -/
theorem division_guard_not_neutral :
    calculate_funding_score (some [100, 0]) = 40 ∧
    calculate_funding_score (some [100, 0]) ≠ 50 ∧
    calculate_north_money_score (some [100, 0]) = 45 ∧
    calculate_north_money_score (some [100, 0]) ≠ 50 := by
  norm_num [calculate_funding_score, calculate_north_money_score, changeRatio, prevOrLatest]

/-- C4 amended: a division hazard (non-positive previous balance in the
funding scorer, non-positive previous held shares in the north-money
scorer) never propagates — the guard sets the change ratio to 0, and the
scorer returns that ratio's bucket score: 40 for funding, 45 for
north-money. -/
theorem division_guard_returns_bucket (latest prev : ℚ) (rest : List ℚ)
    (h : prev ≤ 0) :
    calculate_funding_score (some (latest :: prev :: rest)) = 40 ∧
    calculate_north_money_score (some (latest :: prev :: rest)) = 45 := by
  have hc : changeRatio latest (prevOrLatest latest (prev :: rest)) = 0 := by
    simp only [prevOrLatest, changeRatio, gt_iff_lt]
    rw [if_neg (not_lt.mpr h)]
  constructor
  · simp only [calculate_funding_score, hc]
    norm_num
  · simp only [calculate_north_money_score, hc]
    norm_num

/-- Witness for the amended C4 at latest = 100, previous = 0. -/
theorem division_guard_returns_bucket_witness :
    calculate_funding_score (some [100, 0]) = 40 ∧
    calculate_north_money_score (some [100, 0]) = 45 :=
  division_guard_returns_bucket 100 0 [] (by norm_num)

/-- C9: a non-empty margin history with exactly one record makes the
funding scorer take the previous balance equal to the latest one, so the
change ratio is 0 and the result is the 40 bucket (not the neutral 50),
whatever the single balance value is. -/
theorem funding_single_record_bucket (v : ℚ) :
    calculate_funding_score (some [v]) = 40 := by
  have hc : changeRatio v (prevOrLatest v []) = 0 := by
    simp only [prevOrLatest, changeRatio, sub_self, zero_div, ite_self]
  simp only [calculate_funding_score, hc]
  norm_num

/-- C10: a non-empty info frame without a `总市值` column makes
`DataFrame.get` return the default 0, and the liquidity scorer lands in
the smallest-cap bucket 70 rather than the neutral 50. -/
theorem liquidity_missing_cap_field (n : Nat) (cols : List String)
    (hn : n ≠ 0) (hc : "总市值" ∉ cols) :
    calculate_liquidity_score (some ⟨n, cols⟩) = 70 := by
  simp only [calculate_liquidity_score]
  rw [if_neg hn, if_neg hc]
  norm_num [liquidityBuckets]

/-- Witness for C10: a one-row frame with no columns scores 70. -/
theorem liquidity_missing_cap_field_witness :
    calculate_liquidity_score (some ⟨1, []⟩) = 70 :=
  liquidity_missing_cap_field 1 [] (by decide) (by decide)

/-! ### Breakout sub-score lemmas -/

theorem foldl_max_lt (xs : List ℚ) (x y : ℚ) :
    xs.foldl max x < y ↔ x < y ∧ ∀ a ∈ xs, a < y := by
  induction xs generalizing x with
  | nil => simp
  | cons a as ih =>
    rw [List.foldl_cons, ih]
    simp only [max_lt_iff, List.mem_cons]
    constructor
    · rintro ⟨⟨hx, ha⟩, hall⟩
      exact ⟨hx, fun b hb => hb.elim (fun hba => hba ▸ ha) (hall b)⟩
    · rintro ⟨hx, hall⟩
      exact ⟨⟨hx, hall a (Or.inl rfl)⟩, fun b hb => hall b (Or.inr hb)⟩

theorem lt_foldl_min (xs : List ℚ) (x y : ℚ) :
    y < xs.foldl min x ↔ y < x ∧ ∀ a ∈ xs, y < a := by
  induction xs generalizing x with
  | nil => simp
  | cons a as ih =>
    rw [List.foldl_cons, ih]
    simp only [lt_min_iff, List.mem_cons]
    constructor
    · rintro ⟨⟨hx, ha⟩, hall⟩
      exact ⟨hx, fun b hb => hb.elim (fun hba => hba ▸ ha) (hall b)⟩
    · rintro ⟨hx, hall⟩
      exact ⟨⟨hx, hall a (Or.inl rfl)⟩, fun b hb => hall b (Or.inr hb)⟩

theorem takeLast5_ne_nil {l : List α} (h : l ≠ []) : takeLast 5 l ≠ [] := by
  have hpos : 0 < l.length := List.length_pos.mpr h
  simp only [takeLast, ne_eq, List.drop_eq_nil_iff]
  omega

/-- The breakout condition `latest_close > recent_high` holds exactly when
the latest close exceeds every high of the last five bars. -/
theorem sar_highCond_iff (bars : List Bar) (b0 : Bar) (bs : List Bar) (lc : ℚ)
    (hb : takeLast 5 bars = b0 :: bs) :
    oGT (some lc) (listMax ((takeLast 5 bars).map Bar.high)) = true
      ↔ ∀ b ∈ takeLast 5 bars, b.high < lc := by
  rw [hb]
  simp only [List.map_cons, listMax, oGT, decide_eq_true_eq, List.mem_cons]
  rw [foldl_max_lt]
  constructor
  · rintro ⟨h1, h2⟩ b hbmem
    rcases hbmem with rfl | hmem
    · exact h1
    · exact h2 _ (List.mem_map_of_mem _ hmem)
  · intro hall
    refine ⟨hall b0 (Or.inl rfl), ?_⟩
    intro a ha
    obtain ⟨b, hbmem, rfl⟩ := List.mem_map.mp ha
    exact hall b (Or.inr hbmem)

/-- The breakdown condition `latest_close < recent_low` holds exactly when
the latest close is below every low of the last five bars. -/
theorem sar_lowCond_iff (bars : List Bar) (b0 : Bar) (bs : List Bar) (lc : ℚ)
    (hb : takeLast 5 bars = b0 :: bs) :
    oLT (some lc) (listMin ((takeLast 5 bars).map Bar.low)) = true
      ↔ ∀ b ∈ takeLast 5 bars, lc < b.low := by
  rw [hb]
  simp only [List.map_cons, listMin, oLT, decide_eq_true_eq, List.mem_cons]
  rw [lt_foldl_min]
  constructor
  · rintro ⟨h1, h2⟩ b hbmem
    rcases hbmem with rfl | hmem
    · exact h1
    · exact h2 _ (List.mem_map_of_mem _ hmem)
  · intro hall
    refine ⟨hall b0 (Or.inl rfl), ?_⟩
    intro a ha
    obtain ⟨b, hbmem, rfl⟩ := List.mem_map.mp ha
    exact hall b (Or.inr hbmem)

theorem sarScore_eq_80 (bars : List Bar) (h : bars ≠ [])
    (hbr : ∀ b ∈ takeLast 5 bars, b.high < ilocLast (closesOf bars)) :
    sarScore bars = 80 := by
  obtain ⟨b0, bs, hb⟩ := List.exists_cons_of_ne_nil (takeLast5_ne_nil h)
  simp only [sarScore]
  rw [if_pos ((sar_highCond_iff bars b0 bs _ hb).mpr hbr)]

/-- C7: breakout sub-score of the technical scorer, for every non-empty
bar series.  The 5-day window is `tail(5)` of the frame, which includes
the latest bar.  If the latest close exceeds the window's highest high
the sub-score is 80; otherwise, if it is below the window's lowest low,
30; otherwise 60. -/
theorem sar_breakout_rule (bars : List Bar) (h : bars ≠ []) :
    ((∀ b ∈ takeLast 5 bars, b.high < ilocLast (closesOf bars)) → sarScore bars = 80) ∧
    ((¬ ∀ b ∈ takeLast 5 bars, b.high < ilocLast (closesOf bars)) →
      (∀ b ∈ takeLast 5 bars, ilocLast (closesOf bars) < b.low) → sarScore bars = 30) ∧
    ((¬ ∀ b ∈ takeLast 5 bars, b.high < ilocLast (closesOf bars)) →
      (¬ ∀ b ∈ takeLast 5 bars, ilocLast (closesOf bars) < b.low) → sarScore bars = 60) := by
  obtain ⟨b0, bs, hb⟩ := List.exists_cons_of_ne_nil (takeLast5_ne_nil h)
  have hH := sar_highCond_iff bars b0 bs (ilocLast (closesOf bars)) hb
  have hL := sar_lowCond_iff bars b0 bs (ilocLast (closesOf bars)) hb
  refine ⟨fun hc => sarScore_eq_80 bars h hc, fun hn hc => ?_, fun hn1 hn2 => ?_⟩
  · simp only [sarScore]
    rw [if_neg (fun hcond => hn (hH.mp hcond)), if_pos (hL.mpr hc)]
  · simp only [sarScore]
    rw [if_neg (fun hcond => hn1 (hH.mp hcond)), if_neg (fun hcond => hn2 (hL.mp hcond))]

/-- Witness for C7: a single bar whose close 96 exceeds its high 1, so
the breakout sub-score is 80. -/
theorem sar_breakout_rule_witness : sarScore [⟨1, 1000, 96, 0⟩] = 80 :=
  (sar_breakout_rule [⟨1, 1000, 96, 0⟩] (by decide)).1 (by decide)

/-- C8: for every bar series whose latest close sits exactly on the lower
Bollinger band (band position 0, bands well-defined and of positive
width), whose moving averages satisfy MA5 > MA10 > MA20, and whose latest
close exceeds every high of the 5-day window, the technical score is
exactly `0.3·40 + 0.4·90 + 0.3·80 = 72`. -/
theorem technical_example_72 (bars : List Bar) (u l : ℚ) (hne : bars ≠ [])
    (hu : upperOf (closesOf bars) = some u) (hl : lowerOf (closesOf bars) = some l)
    (hul : l < u) (hcl : ilocLast (closesOf bars) = l)
    (h510 : oGT (meanLast 5 (closesOf bars)) (meanLast 10 (closesOf bars)) = true)
    (h1020 : oGT (meanLast 10 (closesOf bars)) (ma20Of (closesOf bars)) = true)
    (hbr : ∀ b ∈ takeLast 5 bars, b.high < ilocLast (closesOf bars)) :
    calculate_technical_score (some bars) = 72 := by
  have hsar : sarScore bars = 80 := sarScore_eq_80 bars hne hbr
  have hbb : bbScoreOf (closesOf bars) (ilocLast (closesOf bars)) = 40 := by
    have hpos : bbPosOf (closesOf bars) (ilocLast (closesOf bars)) = 0 := by
      simp only [bbPosOf, hu, hl]
      rw [if_pos (by linarith : u - l > 0), hcl]
      simp
    simp only [bbScoreOf, hpos]
    norm_num
  have hma : maScoreOf (closesOf bars) = 90 := by
    simp only [maScoreOf, h510, h1020, Bool.and_self, if_pos]
  obtain ⟨b0, bs, rfl⟩ := List.exists_cons_of_ne_nil hne
  simp only [calculate_technical_score, hbb, hma, hsar]
  norm_num

/-- Witness for C8: the concrete 20-day series `demoBars` (closes of mean
100 and sample standard deviation 2, latest close 96 on the lower band,
MA5 = 101.2 > MA10 = 100.7 > MA20 = 100, all highs below 96) scores
exactly 72. -/
theorem technical_example_72_witness :
    calculate_technical_score (some demoBars) = 72 := by
  have hclo : closesOf demoBars
      = [98, 99, 99, 99, 99, 99, 100, 100, 100, 100,
         101, 100, 100, 100, 100, 100, 100, 105, 105, 96] := rfl
  have hm20 : ma20Of (closesOf demoBars) = some 100 := by
    rw [hclo]
    norm_num [ma20Of, meanLast, takeLast]
  have hvar : varLast 20 (closesOf demoBars) = some 4 := by
    rw [hclo]
    norm_num [varLast, takeLast]
  have hs4 : natSqrtL (Int.toNat 4) = 2 := by decide
  have hs1 : natSqrtL 1 = 1 := by decide
  have hrs : ratSqrt 4 = 2 := by
    rw [ratSqrt]
    norm_num [hs4, hs1]
  have hstd : std20Of (closesOf demoBars) = some 2 := by
    rw [std20Of, hvar]
    simp [hrs]
  have hup : upperOf (closesOf demoBars) = some 104 := by
    rw [upperOf, hm20, hstd]
    norm_num
  have hlo : lowerOf (closesOf demoBars) = some 96 := by
    rw [lowerOf, hm20, hstd]
    norm_num
  have h5 : meanLast 5 (closesOf demoBars) = some (506 / 5) := by
    rw [hclo]
    norm_num [meanLast, takeLast]
  have h10 : meanLast 10 (closesOf demoBars) = some (1007 / 10) := by
    rw [hclo]
    norm_num [meanLast, takeLast]
  apply technical_example_72 demoBars 104 96 (by decide) hup hlo (by norm_num)
  · rw [hclo]
    decide
  · rw [h5, h10]
    simp only [oGT, decide_eq_true_eq]
    norm_num
  · rw [h10, hm20]
    simp only [oGT, decide_eq_true_eq]
    norm_num
  · decide

/-! ### Ranker claims -/

/-- C5 counterexample: under the documented contract of the sort call
(`sort_values` with the default `kind='quicksort'`, which pandas does not
guarantee to be stable), an output that reverses two tied rows satisfies
the contract, so the claim that the ranker's output is always sorted AND
stable on ties is false: witnessed by two records with equal totals whose
order a contract-conforming output swaps. -/
theorem sort_contract_not_stable :
    ¬ ∀ (input output : List ScoreRec), sortValuesDesc input output →
        SortedByTotalDesc output ∧ StableOnTies input output := by
  intro hcl
  have h := hcl [recA, recB] [recB, recA]
    ⟨by decide, by norm_num [SortedByTotalDesc, List.chain'_cons, recA, recB]⟩
  have hs := h.2 recA (by simp) recB (by simp) rfl (by decide)
  exact absurd hs (by decide)

/-- C5 amended: every output the ranker can produce is sorted by
`total_score` non-increasing (equivalently: pairwise non-increasing, by
transitivity) and is a permutation of the per-stock results; the relative
order of records with equal totals is not specified, because the source
sorts with pandas' default `kind='quicksort'`, which is not a stable
sort. -/
theorem ranker_output_sorted_desc (f : String → Option ScoreRec)
    (stocks : List String) (l : List ScoreRec)
    (h : analyze_multiple_stocks f stocks (Except.ok l)) :
    l.Pairwise (fun a b => b.total ≤ a.total) ∧ l.Perm (stocks.filterMap f) := by
  obtain ⟨hne, hperm, hsort⟩ := h
  exact ⟨List.chain'_iff_pairwise.mp hsort, hperm⟩

/-- Witness for the amended C5: a concrete two-stock run whose output
lists the total-60 record before the total-50 record. -/
theorem ranker_output_sorted_desc_witness :
    [recC, recA].Pairwise (fun a b : ScoreRec => b.total ≤ a.total) ∧
    [recC, recA].Perm (["000001", "000003"].filterMap demoScorer) :=
  ranker_output_sorted_desc demoScorer ["000001", "000003"] [recC, recA]
    ⟨by decide, by decide, by norm_num [SortedByTotalDesc, List.chain'_cons, recA, recC]⟩

/-- C6 counterexample: when every identifier in the batch fails, the
collected results list is empty, `pd.DataFrame([])` has no `total_score`
column, and `sort_values` raises `KeyError` — the ranker itself raises
instead of returning an empty result, so the claim's "including when all
of them fail" case is false. -/
theorem ranker_raises_when_all_fail :
    analyze_multiple_stocks (fun _ => none) ["000001"] (Except.error ()) ∧
    ∀ l, ¬ analyze_multiple_stocks (fun _ => none) ["000001"] (Except.ok l) := by
  constructor
  · show List.filterMap _ _ = []
    decide
  · intro l hl
    exact hl.1 (by decide)

/-- C6 amended: whenever at least one identifier scores successfully, the
ranker cannot raise: the error outcome is impossible, every successful
outcome omits exactly the failing identifiers (its rows are a permutation
of the collected per-stock results), and a conforming successful outcome
exists. -/
theorem ranker_skips_failures (f : String → Option ScoreRec) (stocks : List String)
    (h : stocks.filterMap f ≠ []) :
    (¬ analyze_multiple_stocks f stocks (Except.error ())) ∧
    (∀ l, analyze_multiple_stocks f stocks (Except.ok l) →
      l.Perm (stocks.filterMap f)) ∧
    (∃ l, analyze_multiple_stocks f stocks (Except.ok l)) := by
  refine ⟨fun hc => h hc, fun l hl => hl.2.1, ?_⟩
  refine ⟨(stocks.filterMap f).insertionSort (fun a b => b.total ≤ a.total), h,
    List.perm_insertionSort _ _, ?_⟩
  exact List.Pairwise.chain' (List.sorted_insertionSort _ _)

/-- Witness for the amended C6: a batch where the identifier `"bad"`
fails while two others succeed. -/
theorem ranker_skips_failures_witness :
    (¬ analyze_multiple_stocks demoScorer ["000001", "bad", "000003"] (Except.error ())) ∧
    (∀ l, analyze_multiple_stocks demoScorer ["000001", "bad", "000003"] (Except.ok l) →
      l.Perm (["000001", "bad", "000003"].filterMap demoScorer)) ∧
    (∃ l, analyze_multiple_stocks demoScorer ["000001", "bad", "000003"] (Except.ok l)) :=
  ranker_skips_failures demoScorer ["000001", "bad", "000003"] (by decide)

end SmartMoney
